import Mathlib

/-!
Verification of the prompt-assembly pipeline of
`src/generate.ts` (`runCharacterFieldGeneration`), via a shallow embedding
of the function and the JavaScript string operations it uses.
-/

namespace CharCreator

/-- Boolean test that `pat` is a prefix of `s` (character lists). -/
def isPref : List Char → List Char → Bool
  | [], _ => true
  | _ :: _, [] => false
  | a :: as, b :: bs => a == b && isPref as bs

/-- Boolean test that `pat` occurs as a contiguous substring of `s`. -/
def containsSub (pat : List Char) : List Char → Bool
  | [] => isPref pat []
  | c :: rest => isPref pat (c :: rest) || containsSub pat rest

/-- Fuelled worker for `replaceAll`.  With `fuel ≥ s.length` it performs the
left-to-right, non-overlapping replacement of every occurrence of `pat` by
`rep` in `s`, exactly as JavaScript `String.prototype.replaceAll` does for a
non-empty string pattern. -/
def replaceAllFuel (pat rep : List Char) : Nat → List Char → List Char
  | _, [] => []
  | 0, c :: rest => c :: rest
  | fuel + 1, c :: rest =>
    if pat ≠ [] ∧ isPref pat (c :: rest) = true then
      rep ++ replaceAllFuel pat rep fuel (List.drop pat.length (c :: rest))
    else
      c :: replaceAllFuel pat rep fuel rest

/-- JavaScript `s.replaceAll(pat, rep)` on character lists. -/
def replaceAll (pat rep s : List Char) : List Char :=
  replaceAllFuel pat rep s.length s

/-- JavaScript `s.replaceAll(pat, rep)` on strings. -/
def replaceAllStr (pat rep s : String) : String :=
  String.mk (replaceAll pat.data rep.data s.data)

/-- `pat` occurs as a contiguous substring of `s` (strings). -/
def containsSubStr (pat s : String) : Bool :=
  containsSub pat.data s.data

/-- Two lists are prefix-comparable when one is a prefix of the other. -/
def prefComparable (a b : List Char) : Bool :=
  isPref a b || isPref b a

/-- Occurrences of `q` and occurrences of `pat` can never overlap: no
nonempty suffix of either is prefix-comparable with the other list. -/
def overlapFree (q pat : List Char) : Prop :=
  (∀ i, i < pat.length → prefComparable q (pat.drop i) = false) ∧
    (∀ j, j < q.length → prefComparable pat (q.drop j) = false)

instance (q pat : List Char) : Decidable (overlapFree q pat) := by
  unfold overlapFree
  infer_instance

/-! ## Data model

Shallow embedding of the data shapes used by `runCharacterFieldGeneration`
in `src/generate.ts`.  JavaScript `Record<string, T>` objects are modelled
as association lists `List (String × T)` (keys unique, insertion-ordered);
values that may be `undefined` are modelled as `Option`. -/

/-- Key lookup in an object modelled as an association list. -/
def lookupRecord {α : Type} : List (String × α) → String → Option α
  | [], _ => none
  | (k, v) :: rest, key => if k = key then some v else lookupRecord rest key

/-- A connection profile as used by the profile registry
(`connectionManager.profiles`): `id`, display `name` and optional `api`. -/
structure Profile where
  id : String
  name : String
  api : Option String
deriving DecidableEq, Repr

/-- One entry of the host `CONNECT_API_MAP`; only its `selected` backend
identifier is read by the module. -/
structure ConnectApiEntry where
  selected : Option String
deriving DecidableEq, Repr

/-- A role-tagged chat message (`Message` of the utils library restricted to
the two fields this module reads and writes). -/
structure Message where
  role : String
  content : String
deriving DecidableEq, Repr

/-- Lorebook (world-info) entry; the module only inspects `disable`. -/
structure WIEntry where
  uid : Nat
  comment : String
  content : String
  disable : Bool
deriving DecidableEq, Repr

/-- Character record; opaque pass-through data for the template context. -/
structure Character where
  name : String
  description : String
deriving DecidableEq, Repr

/-- `CharacterField` of `src/generate.ts`. -/
structure CharacterField where
  prompt : String
  value : String
  label : String
deriving DecidableEq, Repr

/-- `Session` of `src/generate.ts`.  `fields` is the fixed-field record
(keyed by the six character field names), `draftFields` is the user-defined
draft record. -/
structure Session where
  selectedCharacterIndexes : List String
  selectedWorldNames : List String
  fields : List (String × CharacterField)
  draftFields : List (String × CharacterField)
deriving DecidableEq, Repr

/-- A named prompt template from the extension settings (`promptSettings`);
the module reads only its `content`. -/
structure PromptSetting where
  content : String
deriving DecidableEq, Repr

/-- One entry of `mainContextList`: a prompt name plus the chat role the
rendered message should carry. -/
structure MainContextEntry where
  promptName : String
  role : String
deriving DecidableEq, Repr

/-- `formatDescription` parameter (an object with a `content` string). -/
structure FormatDescription where
  content : String
deriving DecidableEq, Repr

/-- Opaque handle for the host's `BuildPromptOptions`; the module only
passes it through to `buildPrompt`. -/
structure BuildPromptOptions where
  token : Nat
deriving DecidableEq, Repr

/-- The response format expected from the model. -/
inductive OutputFormat where
  | xml
  | json
  | noFormat
deriving DecidableEq, Repr

/-- The combined core/draft field values placed under the `fields` key of
the template context (label-keyed value maps). -/
structure FieldsData where
  core : List (String × String)
  draft : List (String × String)
deriving DecidableEq, Repr

/-- The template context handed to the template engine (`templateData` in
the source, with its dynamic string keys made explicit). -/
structure TemplateData where
  userInstructions : String
  fieldSpecificInstructions : Option String
  targetField : String
  activeFormatInstructions : String
  char : String
  user : String
  characters : List Character
  lorebooks : List (String × List WIEntry)
  fields : FieldsData
deriving DecidableEq, Repr

/-- `RunCharacterFieldGenerationParams` of `src/generate.ts`. -/
structure RunCharacterFieldGenerationParams where
  profileId : String
  userPrompt : String
  buildPromptOptions : BuildPromptOptions
  session : Session
  allCharacters : List Character
  entriesGroupByWorldName : List (String × List WIEntry)
  promptSettings : List (String × PromptSetting)
  formatDescription : FormatDescription
  mainContextList : List MainContextEntry
  maxResponseToken : Nat
  targetField : String
  outputFormat : OutputFormat

/-- Host environment consumed through `globalContext` and the utils
library: profile registry, `CONNECT_API_MAP`, parameter substitution,
persona names (`name1`/`name2`), the base prompt builder, the template
engine (`Handlebars.compile` with `noEscape`, applied to a template source
and a context), the request service and the response-format extractor
(`parseResponse` of `parsers.js`, not part of this module). -/
structure Env where
  profiles : Option (List Profile)
  connectApiMap : List (String × ConnectApiEntry)
  substituteParams : String → String
  name1 : Option String
  name2 : Option String
  buildPrompt : String → BuildPromptOptions → List Message
  render : String → TemplateData → String
  sendRequest : String → List Message → Nat → String
  parseResponse : String → OutputFormat → String

/-- Failures thrown by `runCharacterFieldGeneration` before any request is
sent: the three explicit `throw new Error(...)` sites, plus the JavaScript
`TypeError` that `CONNECT_API_MAP[profile.api].selected` raises when the
api key is absent from the map. -/
inductive GenError where
  | noProfileSelected
  | profileNotFound (profileId : String)
  | apiUndeterminable (profileName : String)
  | jsTypeError
deriving DecidableEq, Repr

/-- One call to `ConnectionManagerRequestService.sendRequest`. -/
structure SentCall where
  profileId : String
  messages : List Message
  maxResponseToken : Nat
deriving DecidableEq, Repr

/-! ## Pipeline steps -/

/-- `globalContext.extensionSettings.connectionManager?.profiles?.find(p => p.id === profileId)`. -/
def findProfile (env : Env) (profileId : String) : Option Profile :=
  match env.profiles with
  | none => none
  | some ps => ps.find? (fun p => p.id = profileId)

/-- Line 93 of `generate.ts`:
`profile.api ? CONNECT_API_MAP[profile.api].selected : undefined`, followed
by the `!selectedApi` truthiness check of lines 94–96.  An empty `api`
string is falsy; a missing map key makes `.selected` throw a `TypeError`;
an absent or empty `selected` yields the could-not-determine error. -/
def selectedApiStep (env : Env) (profile : Profile) : Except GenError String :=
  match profile.api with
  | none => .error (.apiUndeterminable profile.name)
  | some a =>
    if a = "" then .error (.apiUndeterminable profile.name)
    else
      match lookupRecord env.connectApiMap a with
      | none => .error .jsTypeError
      | some entry =>
        match entry.selected with
        | none => .error (.apiUndeterminable profile.name)
        | some s =>
          if s = "" then .error (.apiUndeterminable profile.name) else .ok s

/-- JavaScript `parseInt` digit value for base `base` (10 or 16). -/
def digitVal (base : Nat) (c : Char) : Option Nat :=
  if '0' ≤ c ∧ c ≤ '9' then
    if c.toNat - '0'.toNat < base then some (c.toNat - '0'.toNat) else none
  else if 'a' ≤ c ∧ c ≤ 'z' then
    if c.toNat - 'a'.toNat + 10 < base then some (c.toNat - 'a'.toNat + 10) else none
  else if 'A' ≤ c ∧ c ≤ 'Z' then
    if c.toNat - 'A'.toNat + 10 < base then some (c.toNat - 'A'.toNat + 10) else none
  else none

/-- Accumulate the maximal leading run of digits; returns the value and the
number of digits consumed. -/
def parseDigits (base : Nat) : List Char → Nat → Nat → Nat × Nat
  | [], acc, count => (acc, count)
  | c :: rest, acc, count =>
    match digitVal base c with
    | some v => parseDigits base rest (acc * base + v) (count + 1)
    | none => (acc, count)

/-- JavaScript `parseInt(s)` with no radix argument: skip leading
whitespace, optional sign, optional `0x`/`0X` hex marker, then the maximal
digit run; `none` models `NaN`. -/
def jsParseInt (s : String) : Option Int :=
  let cs := s.data.dropWhile Char.isWhitespace
  let signed : Int × List Char :=
    match cs with
    | '-' :: r => (-1, r)
    | '+' :: r => (1, r)
    | _ => (1, cs)
  let based : Nat × List Char :=
    match signed.2 with
    | '0' :: 'x' :: r => (16, r)
    | '0' :: 'X' :: r => (16, r)
    | _ => (10, signed.2)
  let parsed := parseDigits based.1 based.2 0 0
  if parsed.2 = 0 then none else some (signed.1 * (parsed.1 : Int))

/-- JavaScript array indexing `arr[i]` for an integer index: `undefined`
for negative or out-of-range indexes. -/
def jsIndex {α : Type} (l : List α) (n : Int) : Option α :=
  if n < 0 then none else l.get? n.toNat

/-- Resolution of one selected character index string: `parseInt` it and
index `allCharacters`; `none` when the index is malformed or out of range. -/
def resolveCharacter (allCharacters : List Character) (charIndex : String) :
    Option Character :=
  match jsParseInt charIndex with
  | none => none
  | some n => jsIndex allCharacters n

/-- Lines 112–123 of `generate.ts`: the `forEach`/`push` loop building
`templateData['characters']` from `session.selectedCharacterIndexes`. -/
def buildCharacters (allCharacters : List Character) (idxs : List String) :
    List Character :=
  idxs.foldl
    (fun charactersData charIndex =>
      match jsParseInt charIndex with
      | none => charactersData
      | some n =>
        match jsIndex allCharacters n with
        | some char => charactersData ++ [char]
        | none => charactersData)
    []

/-- Lines 126–140 of `generate.ts`: filter the world-grouped lorebook
entries to the selected worlds having at least one enabled entry, keeping
only enabled entries per world. -/
def buildLorebooks (entriesGroupByWorldName : List (String × List WIEntry))
    (selectedWorldNames : List String) : List (String × List WIEntry) :=
  (entriesGroupByWorldName.filter
      (fun we =>
        decide (0 < we.2.length) && selectedWorldNames.contains we.1 &&
          we.2.any (fun entry => !entry.disable))).map
    (fun we => (we.1, we.2.filter (fun entry => !entry.disable)))

/-- Lines 143–158 of `generate.ts`: label-keyed value maps for core and
draft fields. -/
def buildFieldsData (session : Session) : FieldsData :=
  { core := session.fields.map (fun fe => (fe.2.label, fe.2.value))
    draft := session.draftFields.map (fun fe => (fe.2.label, fe.2.value)) }

/-- Lines 101–102 of `generate.ts`:
`session.draftFields[targetField]?.prompt ?? session.fields[targetField]?.prompt`. -/
def fieldSpecificInstructionsOf (session : Session) (targetField : String) :
    Option String :=
  ((lookupRecord session.draftFields targetField).map CharacterField.prompt).orElse
    (fun _ => (lookupRecord session.fields targetField).map CharacterField.prompt)

/-- Lines 98–158 of `generate.ts`: assembly of `templateData`. -/
def buildTemplateData (env : Env) (p : RunCharacterFieldGenerationParams)
    (processedUserPrompt : String) : TemplateData :=
  { userInstructions := processedUserPrompt
    fieldSpecificInstructions := fieldSpecificInstructionsOf p.session p.targetField
    targetField := p.targetField
    activeFormatInstructions := p.formatDescription.content
    char := env.name1.getD "\x7b\x7bchar\x7d\x7d"
    user := env.name2.getD "\x7b\x7buser\x7d\x7d"
    characters := buildCharacters p.allCharacters p.session.selectedCharacterIndexes
    lorebooks := buildLorebooks p.entriesGroupByWorldName p.session.selectedWorldNames
    fields := buildFieldsData p.session }

/-- The literal `\x7b\x7buser\x7d\x7d` token. -/
def USER_TOKEN : String := "\x7b\x7buser\x7d\x7d"

/-- The literal `\x7b\x7bchar\x7d\x7d` token. -/
def CHAR_TOKEN : String := "\x7b\x7bchar\x7d\x7d"

/-- Sentinel protecting literal user tokens across host substitution. -/
def USER_SENTINEL : String := "[[[crec_veryUniqueUserPlaceHolder]]]"

/-- Sentinel protecting literal char tokens across host substitution. -/
def CHAR_SENTINEL : String := "[[[crec_veryUniqueCharPlaceHolder]]]"

/-- Lines 180–184 of `generate.ts`: the protect → substitute → restore
sequence applied to a rendered template content. -/
def processTemplateContent (substituteParams : String → String)
    (content : String) : String :=
  let c1 := replaceAllStr USER_TOKEN USER_SENTINEL content
  let c2 := replaceAllStr CHAR_TOKEN CHAR_SENTINEL c1
  let c3 := substituteParams c2
  let c4 := replaceAllStr USER_SENTINEL USER_TOKEN c3
  replaceAllStr CHAR_SENTINEL CHAR_TOKEN c4

/-- A substitution stub that unconditionally replaces every `\x7b\x7buser\x7d\x7d`
with `uname` and every `\x7b\x7bchar\x7d\x7d` with `cname` (the worst case the
placeholder protection must survive). -/
def substAllStub (uname cname : String) (s : String) : String :=
  replaceAllStr CHAR_TOKEN cname (replaceAllStr USER_TOKEN uname s)

/-- One iteration of the message-assembly loop (lines 162–188 of
`generate.ts`), acting on the accumulated `messages` list. -/
def assembleStep (env : Env) (promptSettings : List (String × PromptSetting))
    (templateData : TemplateData) (chatMessages : List Message)
    (msgs : List Message) (mainContext : MainContextEntry) : List Message :=
  if mainContext.promptName = "chatHistory" then
    msgs ++ chatMessages.map (fun message => { role := message.role, content := message.content })
  else
    match lookupRecord promptSettings mainContext.promptName with
    | none => msgs
    | some prompt =>
      let content :=
        processTemplateContent env.substituteParams
          (env.render prompt.content templateData)
      if content = "" then msgs else msgs ++ [{ role := mainContext.role, content := content }]

/-- Lines 160–189 of `generate.ts`: the full message-assembly loop. -/
def assembleMessages (env : Env) (promptSettings : List (String × PromptSetting))
    (templateData : TemplateData) (chatMessages : List Message)
    (mainContextList : List MainContextEntry) : List Message :=
  mainContextList.foldl (assembleStep env promptSettings templateData chatMessages) []

/-- `runCharacterFieldGeneration` of `src/generate.ts`.  The returned pair
is the call result (parsed response or thrown error) together with the
trace of `sendRequest` calls made (empty on every error path, a single
call on the success path). -/
def runCharacterFieldGeneration (env : Env)
    (p : RunCharacterFieldGenerationParams) :
    Except GenError String × List SentCall :=
  if p.profileId = "" then
    (.error .noProfileSelected, [])
  else
    match findProfile env p.profileId with
    | none => (.error (.profileNotFound p.profileId), [])
    | some profile =>
      let processedUserPrompt := env.substituteParams p.userPrompt.trim
      match selectedApiStep env profile with
      | .error e => (.error e, [])
      | .ok selectedApi =>
        let templateData := buildTemplateData env p processedUserPrompt
        let chatMessages := env.buildPrompt selectedApi p.buildPromptOptions
        let messages :=
          assembleMessages env p.promptSettings templateData chatMessages
            p.mainContextList
        let responseContent := env.sendRequest p.profileId messages p.maxResponseToken
        (.ok (env.parseResponse responseContent p.outputFormat),
          [{ profileId := p.profileId, messages := messages,
             maxResponseToken := p.maxResponseToken }])

/-- The messages contributed by a single `mainContextList` entry (used to
characterise the assembly loop): a `chatHistory` entry splices the base
chat messages, a template entry yields at most one rendered message. -/
def mainContextContribution (env : Env)
    (promptSettings : List (String × PromptSetting)) (templateData : TemplateData)
    (chatMessages : List Message) (mainContext : MainContextEntry) : List Message :=
  if mainContext.promptName = "chatHistory" then
    chatMessages.map (fun message => { role := message.role, content := message.content })
  else
    match lookupRecord promptSettings mainContext.promptName with
    | none => []
    | some prompt =>
      let content :=
        processTemplateContent env.substituteParams
          (env.render prompt.content templateData)
      if content = "" then [] else [{ role := mainContext.role, content := content }]

/-! ## Concrete sample data

Closed instances used to witness the hypotheses of the theorems below on
concrete inputs. -/

/-- A concrete host environment. -/
def envW : Env :=
  { profiles := some [{ id := "p1", name := "Main", api := some "openai" }]
    connectApiMap := [("openai", { selected := some "oai" })]
    substituteParams := fun s => s
    name1 := some "Alice"
    name2 := some "Bob"
    buildPrompt := fun _ _ =>
      [{ role := "system", content := "sys" }, { role := "user", content := "" }]
    render := fun tpl _ => tpl
    sendRequest := fun _ _ _ => "resp"
    parseResponse := fun c _ => c }

/-- A host environment whose substitution consumes every placeholder
token, rendering templates to their source. -/
def envSubstW : Env :=
  { envW with substituteParams := substAllStub "Alice" "Bob" }

/-- A host environment whose renderer produces the empty string. -/
def envEmptyW : Env :=
  { envW with render := fun _ _ => "" }

/-- A concrete session. -/
def sessionW : Session :=
  { selectedCharacterIndexes := ["0", "2", "x"]
    selectedWorldNames := ["wa"]
    fields := [("description", { prompt := "fixed", value := "v", label := "Description" })]
    draftFields := [("description", { prompt := "draft", value := "w", label := "Draft" })] }

/-- A concrete template context. -/
def tdW : TemplateData :=
  { userInstructions := ""
    fieldSpecificInstructions := none
    targetField := "description"
    activeFormatInstructions := ""
    char := "Alice"
    user := "Bob"
    characters := []
    lorebooks := []
    fields := { core := [], draft := [] } }

/-- Concrete request parameters. -/
def paramsW : RunCharacterFieldGenerationParams :=
  { profileId := "p1"
    userPrompt := "hi"
    buildPromptOptions := { token := 0 }
    session := sessionW
    allCharacters := [{ name := "A", description := "da" }, { name := "B", description := "db" }]
    entriesGroupByWorldName :=
      [("wa", [{ uid := 0, comment := "", content := "ea", disable := true },
               { uid := 1, comment := "", content := "eb", disable := false }]),
       ("wb", [{ uid := 2, comment := "", content := "ec", disable := true }])]
    promptSettings := [("intro", { content := "Hello" })]
    formatDescription := { content := "" }
    mainContextList := [{ promptName := "chatHistory", role := "user" }]
    maxResponseToken := 10
    targetField := "description"
    outputFormat := .noFormat }

/-! ## String lemmas -/

theorem isPref_append_self (p t : List Char) : isPref p (p ++ t) = true := by
  induction p with
  | nil => rfl
  | cons a as ih => simp [isPref, ih]

theorem containsSub_of_isPref {p s : List Char} (h : isPref p s = true) :
    containsSub p s = true := by
  cases s with
  | nil => simpa [containsSub] using h
  | cons c rest => simp [containsSub, h]

theorem containsSub_cons {p r : List Char} (c : Char) (h : containsSub p r = true) :
    containsSub p (c :: r) = true := by
  simp [containsSub, h]

theorem containsSub_append_left {p u : List Char} (v : List Char)
    (h : containsSub p u = true) : containsSub p (v ++ u) = true := by
  induction v with
  | nil => simpa using h
  | cons c v ih => simpa using containsSub_cons c ih

theorem containsSub_of_drop {p t : List Char} {n : Nat}
    (h : containsSub p (t.drop n) = true) : containsSub p t = true := by
  induction n generalizing t with
  | zero => simpa using h
  | succ n ih =>
    cases t with
    | nil => simpa using h
    | cons c rest => exact containsSub_cons c (ih (by simpa using h))

theorem isPref_eq_append {p s : List Char} (h : isPref p s = true) :
    s = p ++ s.drop p.length := by
  induction p generalizing s with
  | nil => simp
  | cons a as ih =>
    cases s with
    | nil => simp [isPref] at h
    | cons b bs =>
      simp only [isPref, Bool.and_eq_true, beq_iff_eq] at h
      obtain ⟨rfl, h2⟩ := h
      simpa [List.drop] using congrArg (a :: ·) (ih h2)

theorem isPref_append_cases {q a t : List Char} (h : isPref q (a ++ t) = true) :
    isPref q a = true ∨ isPref a q = true := by
  induction a generalizing q with
  | nil => exact Or.inr rfl
  | cons x a ih =>
    cases q with
    | nil => exact Or.inl rfl
    | cons q0 qt =>
      simp only [List.cons_append, isPref, Bool.and_eq_true, beq_iff_eq] at h
      obtain ⟨rfl, h2⟩ := h
      rcases ih h2 with h3 | h3
      · exact Or.inl (by simp [isPref, h3])
      · exact Or.inr (by simp [isPref, h3])

theorem prefComparable_of_isPref_isPref {p q t : List Char}
    (hp : isPref p t = true) (hq : isPref q t = true) :
    prefComparable p q = true := by
  induction t generalizing p q with
  | nil =>
    cases p with
    | nil => simp [prefComparable, isPref]
    | cons a as => simp [isPref] at hp
  | cons c rest ih =>
    cases p with
    | nil => simp [prefComparable, isPref]
    | cons p0 pt =>
      cases q with
      | nil => simp [prefComparable, isPref]
      | cons q0 qt =>
        simp only [isPref, Bool.and_eq_true, beq_iff_eq] at hp hq
        obtain ⟨rfl, hp2⟩ := hp
        obtain ⟨rfl, hq2⟩ := hq
        have := ih hp2 hq2
        simp only [prefComparable, isPref, Bool.or_eq_true, Bool.and_eq_true,
          beq_iff_eq] at this ⊢
        tauto

theorem containsSub_append_strip {q : List Char} (a : List Char) (t : List Char)
    (H : ∀ k, k < a.length → prefComparable q (a.drop k) = false) :
    containsSub q (a ++ t) = containsSub q t := by
  induction a with
  | nil => simp
  | cons x a ih =>
    have hnp : isPref q ((x :: a) ++ t) = false := by
      by_contra hcon
      have hp := eq_true_of_ne_false hcon
      rcases isPref_append_cases hp with h1 | h1
      · have := H 0 (by simp)
        simp [prefComparable, h1] at this
      · have := H 0 (by simp)
        simp [prefComparable, h1] at this
    have step : containsSub q ((x :: a) ++ t)
        = (isPref q ((x :: a) ++ t) || containsSub q (a ++ t)) := rfl
    rw [step, hnp, Bool.false_or]
    exact ih (fun k hk => by
      have := H (k + 1) (by simpa using Nat.succ_lt_succ hk)
      simpa using this)

theorem containsSub_append_not_head {q0 : Char} {qt : List Char} (rep t : List Char)
    (h : q0 ∉ rep) :
    containsSub (q0 :: qt) (rep ++ t) = containsSub (q0 :: qt) t := by
  induction rep with
  | nil => simp
  | cons r rep ih =>
    have hr : q0 ≠ r := fun he => h (he ▸ List.mem_cons_self r rep)
    have hnp : isPref (q0 :: qt) ((r :: rep) ++ t) = false := by
      simp [isPref, hr]
    have step : containsSub (q0 :: qt) ((r :: rep) ++ t)
        = (isPref (q0 :: qt) ((r :: rep) ++ t) || containsSub (q0 :: qt) (rep ++ t)) := rfl
    rw [step, hnp, Bool.false_or]
    exact ih (fun he => h (List.mem_cons_of_mem r he))

theorem containsSub_nil_pat (t : List Char) : containsSub [] t = true := by
  cases t <;> rfl

theorem containsSub_cons_eq (pat : List Char) (c : Char) (rest : List Char) :
    containsSub pat (c :: rest) = (isPref pat (c :: rest) || containsSub pat rest) := rfl

theorem replaceAllFuel_match {pat rep : List Char} {fuel : Nat} {c : Char}
    {rest : List Char} (hm : pat ≠ [] ∧ isPref pat (c :: rest) = true) :
    replaceAllFuel pat rep (fuel + 1) (c :: rest)
      = rep ++ replaceAllFuel pat rep fuel (List.drop pat.length (c :: rest)) := by
  simp only [replaceAllFuel]
  rw [if_pos hm]

theorem replaceAllFuel_skip {pat rep : List Char} {fuel : Nat} {c : Char}
    {rest : List Char} (hm : ¬(pat ≠ [] ∧ isPref pat (c :: rest) = true)) :
    replaceAllFuel pat rep (fuel + 1) (c :: rest)
      = c :: replaceAllFuel pat rep fuel rest := by
  simp only [replaceAllFuel]
  rw [if_neg hm]

theorem replaceAllFuel_of_not_containsSub {pat rep : List Char} :
    ∀ (fuel : Nat) (s : List Char), containsSub pat s = false →
      replaceAllFuel pat rep fuel s = s := by
  intro fuel
  induction fuel with
  | zero => intro s _; cases s <;> rfl
  | succ fuel ih =>
    intro s h
    cases s with
    | nil => rfl
    | cons c rest =>
      rw [containsSub_cons_eq] at h
      have h1 : isPref pat (c :: rest) = false := by
        cases hb : isPref pat (c :: rest) <;> simp [hb] at h ⊢
      have h2 : containsSub pat rest = false := by
        cases hb : containsSub pat rest <;> simp [hb] at h ⊢
      rw [replaceAllFuel_skip (fun hm => by simp [h1] at hm), ih rest h2]

theorem containsSub_rep_replaceAllFuel {pat rep : List Char} (hp : pat ≠ []) :
    ∀ (fuel : Nat) (s : List Char), s.length ≤ fuel → containsSub pat s = true →
      containsSub rep (replaceAllFuel pat rep fuel s) = true := by
  intro fuel
  induction fuel with
  | zero =>
    intro s hl h
    have hs : s = [] := List.eq_nil_of_length_eq_zero (Nat.le_zero.mp hl)
    subst hs
    cases pat with
    | nil => exact absurd rfl hp
    | cons p0 pt => simp [containsSub, isPref] at h
  | succ fuel ih =>
    intro s hl h
    cases s with
    | nil =>
      cases pat with
      | nil => exact absurd rfl hp
      | cons p0 pt => simp [containsSub, isPref] at h
    | cons c rest =>
      by_cases hm : pat ≠ [] ∧ isPref pat (c :: rest) = true
      · rw [replaceAllFuel_match hm]
        exact containsSub_of_isPref (isPref_append_self rep _)
      · rw [replaceAllFuel_skip hm]
        have h1 : isPref pat (c :: rest) = false := by
          cases hb : isPref pat (c :: rest)
          · rfl
          · exact absurd ⟨hp, hb⟩ hm
        rw [containsSub_cons_eq, h1, Bool.false_or] at h
        exact containsSub_cons c (ih rest (Nat.le_of_succ_le_succ hl) h)

theorem not_isPref_drop_replaceAllFuel {pat : List Char} {r0 : Char} {rt : List Char}
    {q : List Char} (hr : r0 ∉ q.drop 1) :
    ∀ (fuel : Nat) (t : List Char) (k : Nat), 1 ≤ k → k < q.length →
      isPref (q.drop k) t = false →
      isPref (q.drop k) (replaceAllFuel pat (r0 :: rt) fuel t) = false := by
  intro fuel
  induction fuel with
  | zero => intro t k _ _ h; cases t <;> exact h
  | succ fuel ih =>
    intro t k hk1 hklen h
    have hne : q.drop k ≠ [] := by
      intro he
      have : q.length ≤ k := List.drop_eq_nil_iff.mp he
      omega
    obtain ⟨x, xs, hdk⟩ : ∃ x xs, q.drop k = x :: xs := by
      cases hq : q.drop k with
      | nil => exact absurd hq hne
      | cons x xs => exact ⟨x, xs, rfl⟩
    have hx1 : x ∈ q.drop 1 := by
      have hsub : q.drop k = List.drop (k - 1) (q.drop 1) := by
        rw [List.drop_drop]
        congr 1
        omega
      have hmem : x ∈ q.drop k := by rw [hdk]; exact List.mem_cons_self x xs
      rw [hsub] at hmem
      exact List.drop_subset _ _ hmem
    cases t with
    | nil => exact h
    | cons c rest =>
      by_cases hm : pat ≠ [] ∧ isPref pat (c :: rest) = true
      · rw [replaceAllFuel_match hm, hdk]
        have hxr : x ≠ r0 := fun he => hr (he ▸ hx1)
        simp [isPref, hxr]
      · rw [replaceAllFuel_skip hm, hdk]
        by_cases hxc : x = c
        · subst hxc
          rw [hdk] at h
          have hxs : isPref xs rest = false := by
            simpa [isPref] using h
          have hdrop : q.drop (k + 1) = xs := by
            have : q.drop (k + 1) = List.drop 1 (q.drop k) := by
              rw [List.drop_drop]
            rw [this, hdk]
            rfl
          by_cases hk2 : k + 1 < q.length
          · have := ih rest (k + 1) (by omega) hk2 (by rw [hdrop]; exact hxs)
            rw [hdrop] at this
            simp [isPref, this]
          · have : q.drop (k + 1) = [] := by
              apply List.drop_eq_nil_iff.mpr
              omega
            rw [hdrop] at this
            subst this
            simp [isPref] at hxs
        · simp [isPref, hxc]

theorem isPref_replaceAllFuel {pat rep : List Char} :
    ∀ (fuel : Nat) (t u : List Char),
      (∀ j, j < u.length → prefComparable pat (u.drop j) = false) →
      isPref u t = true → isPref u (replaceAllFuel pat rep fuel t) = true := by
  intro fuel
  induction fuel with
  | zero => intro t u _ h; cases t <;> exact h
  | succ fuel ih =>
    intro t u Hc h
    cases u with
    | nil => cases replaceAllFuel pat rep (fuel + 1) t <;> rfl
    | cons u0 ut =>
      cases t with
      | nil => simp [isPref] at h
      | cons c rest =>
        have hce : u0 = c ∧ isPref ut rest = true := by
          simpa [isPref] using h
        obtain ⟨rfl, hut⟩ := hce
        by_cases hm : pat ≠ [] ∧ isPref pat (u0 :: rest) = true
        · exfalso
          have hcomp := prefComparable_of_isPref_isPref hm.2 h
          have := Hc 0 (by simp)
          rw [List.drop_zero] at this
          rw [this] at hcomp
          exact Bool.false_ne_true hcomp
        · rw [replaceAllFuel_skip hm]
          have hrec := ih rest ut
            (fun j hj => by
              have := Hc (j + 1) (by simpa using Nat.succ_lt_succ hj)
              simpa using this) hut
          simp [isPref, hrec]

theorem not_containsSub_replaceAllFuel {pat : List Char} {q0 r0 : Char}
    {qt rt : List Char} (hq : q0 ∉ (r0 :: rt)) (hr : r0 ∉ qt) :
    ∀ (fuel : Nat) (t : List Char), containsSub (q0 :: qt) t = false →
      containsSub (q0 :: qt) (replaceAllFuel pat (r0 :: rt) fuel t) = false := by
  intro fuel
  induction fuel with
  | zero => intro t h; cases t <;> exact h
  | succ fuel ih =>
    intro t h
    cases t with
    | nil => exact h
    | cons c rest =>
      rw [containsSub_cons_eq] at h
      have hp : isPref (q0 :: qt) (c :: rest) = false := by
        cases hb : isPref (q0 :: qt) (c :: rest) <;> simp [hb] at h ⊢
      have hcr : containsSub (q0 :: qt) rest = false := by
        cases hb : containsSub (q0 :: qt) rest <;> simp [hb] at h ⊢
      by_cases hm : pat ≠ [] ∧ isPref pat (c :: rest) = true
      · rw [replaceAllFuel_match hm]
        rw [containsSub_append_not_head _ _ hq]
        apply ih
        cases hb : containsSub (q0 :: qt) (List.drop pat.length (c :: rest))
        · rfl
        · exact absurd (containsSub_of_drop hb) (by simp [containsSub_cons_eq, hp, hcr])
      · rw [replaceAllFuel_skip hm, containsSub_cons_eq]
        have hR := ih rest hcr
        rw [hR, Bool.or_false]
        by_cases hqc : q0 = c
        · subst hqc
          have hqt : isPref qt rest = false := by
            simpa [isPref] using hp
          cases qt with
          | nil => simp [isPref] at hqt
          | cons x xs =>
            have := @not_isPref_drop_replaceAllFuel pat r0 rt
              (q0 :: x :: xs) (by simpa using hr) fuel rest 1 (by omega)
              (by simp) (by simpa using hqt)
            simpa [isPref] using this
        · simp [isPref, hqc]

theorem not_containsSub_self_replaceAllFuel {p0 r0 : Char} {pt rt : List Char}
    (h1 : p0 ∉ (r0 :: rt)) (h2 : r0 ∉ pt) :
    ∀ (fuel : Nat) (t : List Char), t.length ≤ fuel →
      containsSub (p0 :: pt) (replaceAllFuel (p0 :: pt) (r0 :: rt) fuel t) = false := by
  intro fuel
  induction fuel with
  | zero =>
    intro t hl
    have hs : t = [] := List.eq_nil_of_length_eq_zero (Nat.le_zero.mp hl)
    subst hs
    rfl
  | succ fuel ih =>
    intro t hl
    cases t with
    | nil => rfl
    | cons c rest =>
      by_cases hm : (p0 :: pt) ≠ [] ∧ isPref (p0 :: pt) (c :: rest) = true
      · rw [replaceAllFuel_match hm]
        rw [containsSub_append_not_head _ _ h1]
        apply ih
        have h5 : (List.drop (p0 :: pt).length (c :: rest)).length ≤ rest.length := by
          simp only [List.length_drop, List.length_cons]
          omega
        have h6 : rest.length + 1 ≤ fuel + 1 := by simpa using hl
        omega
      · rw [replaceAllFuel_skip hm, containsSub_cons_eq]
        have hnp : isPref (p0 :: pt) (c :: rest) = false := by
          cases hb : isPref (p0 :: pt) (c :: rest)
          · rfl
          · exact absurd ⟨List.cons_ne_nil p0 pt, hb⟩ hm
        have hR := ih rest (Nat.le_of_succ_le_succ hl)
        rw [hR, Bool.or_false]
        by_cases hpc : p0 = c
        · subst hpc
          have hpt : isPref pt rest = false := by
            simpa [isPref] using hnp
          cases pt with
          | nil => simp [isPref] at hpt
          | cons x xs =>
            have := @not_isPref_drop_replaceAllFuel (p0 :: x :: xs) r0 rt
              (p0 :: x :: xs) (by simpa using h2) fuel rest 1 (by omega)
              (by simp) (by simpa using hpt)
            simpa [isPref] using this
        · simp [isPref, hpc]

theorem containsSub_replaceAllFuel_of_overlapFree {pat rep q : List Char}
    (hov : overlapFree q pat) :
    ∀ (fuel : Nat) (t : List Char), containsSub q t = true →
      containsSub q (replaceAllFuel pat rep fuel t) = true := by
  intro fuel
  induction fuel with
  | zero => intro t h; cases t <;> exact h
  | succ fuel ih =>
    intro t h
    cases t with
    | nil => exact h
    | cons c rest =>
      rw [containsSub_cons_eq] at h
      by_cases hm : pat ≠ [] ∧ isPref pat (c :: rest) = true
      · rw [replaceAllFuel_match hm]
        rcases Bool.or_eq_true_iff.mp h with hqp | hcr
        · exfalso
          have hcomp := prefComparable_of_isPref_isPref hqp hm.2
          have h0 := hov.1 0 (List.length_pos.mpr hm.1)
          rw [List.drop_zero] at h0
          rw [h0] at hcomp
          exact Bool.false_ne_true hcomp
        · obtain ⟨p0, pt, rfl⟩ : ∃ p0 pt, pat = p0 :: pt := by
            cases pat with
            | nil => exact absurd rfl hm.1
            | cons p0 pt => exact ⟨p0, pt, rfl⟩
          have hshape := isPref_eq_append hm.2
          have hc : c = p0 ∧ rest = pt ++ List.drop (p0 :: pt).length (c :: rest) := by
            have h8 := hshape
            simp only [List.cons_append, List.cons.injEq] at h8
            exact h8
          obtain ⟨rfl, hrest⟩ := hc
          rw [hrest] at hcr
          have hstrip := containsSub_append_strip pt
            (List.drop (c :: pt).length (c :: rest))
            (fun k hk => by
              have := hov.1 (k + 1) (by simpa using Nat.succ_lt_succ hk)
              simpa using this)
          rw [hstrip] at hcr
          exact containsSub_append_left rep (ih _ hcr)
      · rw [replaceAllFuel_skip hm]
        rcases Bool.or_eq_true_iff.mp h with hqp | hcr
        · cases q with
          | nil => exact containsSub_nil_pat _
          | cons q0 ut =>
            have hce : q0 = c ∧ isPref ut rest = true := by
              simpa [isPref] using hqp
            obtain ⟨rfl, hut⟩ := hce
            have hpre := @isPref_replaceAllFuel pat rep fuel rest ut
              (fun j hj => by
                have := hov.2 (j + 1) (by simpa using Nat.succ_lt_succ hj)
                simpa using this) hut
            exact containsSub_of_isPref (by simp [isPref, hpre])
        · exact containsSub_cons c (ih rest hcr)

theorem replaceAll_of_not_containsSub {pat rep s : List Char}
    (h : containsSub pat s = false) : replaceAll pat rep s = s :=
  replaceAllFuel_of_not_containsSub s.length s h

theorem containsSub_rep_replaceAll {pat rep s : List Char} (hp : pat ≠ [])
    (h : containsSub pat s = true) :
    containsSub rep (replaceAll pat rep s) = true :=
  containsSub_rep_replaceAllFuel hp s.length s (Nat.le_refl _) h

theorem not_containsSub_replaceAll {pat : List Char} {q0 r0 : Char}
    {qt rt : List Char} {s : List Char} (hq : q0 ∉ (r0 :: rt)) (hr : r0 ∉ qt)
    (h : containsSub (q0 :: qt) s = false) :
    containsSub (q0 :: qt) (replaceAll pat (r0 :: rt) s) = false :=
  not_containsSub_replaceAllFuel hq hr s.length s h

theorem not_containsSub_self_replaceAll {p0 r0 : Char} {pt rt : List Char}
    {s : List Char} (h1 : p0 ∉ (r0 :: rt)) (h2 : r0 ∉ pt) :
    containsSub (p0 :: pt) (replaceAll (p0 :: pt) (r0 :: rt) s) = false :=
  not_containsSub_self_replaceAllFuel h1 h2 s.length s (Nat.le_refl _)

theorem containsSub_replaceAll_of_overlapFree {pat rep q s : List Char}
    (hov : overlapFree q pat) (h : containsSub q s = true) :
    containsSub q (replaceAll pat rep s) = true :=
  containsSub_replaceAllFuel_of_overlapFree hov s.length s h

theorem not_containsSub_self_replaceAll' {pat rep s : List Char}
    (hp : pat ≠ []) (hrep : rep ≠ [])
    (h1 : ∀ x ∈ rep, some x ≠ pat.head?)
    (h2 : ∀ y ∈ pat.tail, some y ≠ rep.head?) :
    containsSub pat (replaceAll pat rep s) = false := by
  obtain ⟨p0, pt, rfl⟩ : ∃ a l, pat = a :: l := by
    cases pat with
    | nil => exact absurd rfl hp
    | cons a l => exact ⟨a, l, rfl⟩
  obtain ⟨r0, rt, rfl⟩ : ∃ a l, rep = a :: l := by
    cases rep with
    | nil => exact absurd rfl hrep
    | cons a l => exact ⟨a, l, rfl⟩
  exact not_containsSub_self_replaceAll
    (fun hmem => h1 p0 hmem rfl)
    (fun hmem => h2 r0 (by simpa using hmem) rfl)

theorem not_containsSub_replaceAll' {pat q rep s : List Char}
    (hq : q ≠ []) (hrep : rep ≠ [])
    (h1 : ∀ x ∈ rep, some x ≠ q.head?)
    (h2 : ∀ y ∈ q.tail, some y ≠ rep.head?)
    (h : containsSub q s = false) :
    containsSub q (replaceAll pat rep s) = false := by
  obtain ⟨q0, qt, rfl⟩ : ∃ a l, q = a :: l := by
    cases q with
    | nil => exact absurd rfl hq
    | cons a l => exact ⟨a, l, rfl⟩
  obtain ⟨r0, rt, rfl⟩ : ∃ a l, rep = a :: l := by
    cases rep with
    | nil => exact absurd rfl hrep
    | cons a l => exact ⟨a, l, rfl⟩
  exact not_containsSub_replaceAll
    (fun hmem => h1 q0 hmem rfl)
    (fun hmem => h2 r0 (by simpa using hmem) rfl) h

/-! ## Assembly-loop characterisation -/

theorem message_eta (l : List Message) :
    l.map (fun message =>
      ({ role := message.role, content := message.content } : Message)) = l := by
  induction l with
  | nil => rfl
  | cons m l ih => simp [ih]

theorem assembleStep_eq (env : Env) (ps : List (String × PromptSetting))
    (td : TemplateData) (chat : List Message) (msgs : List Message)
    (mc : MainContextEntry) :
    assembleStep env ps td chat msgs mc
      = msgs ++ mainContextContribution env ps td chat mc := by
  unfold assembleStep mainContextContribution
  by_cases h : mc.promptName = "chatHistory"
  · simp [h]
  · cases hl : lookupRecord ps mc.promptName with
    | none => simp [h, hl]
    | some prompt =>
      by_cases hc : processTemplateContent env.substituteParams
          (env.render prompt.content td) = ""
      · simp [h, hl, hc]
      · simp [h, hl, hc]

theorem assembleMessages_acc (env : Env) (ps : List (String × PromptSetting))
    (td : TemplateData) (chat : List Message) :
    ∀ (l : List MainContextEntry) (msgs : List Message),
      l.foldl (assembleStep env ps td chat) msgs
        = msgs ++ assembleMessages env ps td chat l := by
  intro l
  induction l with
  | nil => intro msgs; simp [assembleMessages]
  | cons mc l ih =>
    intro msgs
    have h1 : (mc :: l).foldl (assembleStep env ps td chat) msgs
        = l.foldl (assembleStep env ps td chat) (assembleStep env ps td chat msgs mc) :=
      rfl
    have h2 : assembleMessages env ps td chat (mc :: l)
        = l.foldl (assembleStep env ps td chat) (assembleStep env ps td chat [] mc) :=
      rfl
    rw [h1, ih, assembleStep_eq, h2, ih, assembleStep_eq]
    simp

theorem assembleMessages_cons (env : Env) (ps : List (String × PromptSetting))
    (td : TemplateData) (chat : List Message) (mc : MainContextEntry)
    (l : List MainContextEntry) :
    assembleMessages env ps td chat (mc :: l)
      = mainContextContribution env ps td chat mc
          ++ assembleMessages env ps td chat l := by
  have h : assembleMessages env ps td chat (mc :: l)
      = l.foldl (assembleStep env ps td chat) (assembleStep env ps td chat [] mc) :=
    rfl
  rw [h, assembleMessages_acc, assembleStep_eq]
  simp

theorem assembleMessages_append (env : Env) (ps : List (String × PromptSetting))
    (td : TemplateData) (chat : List Message) (xs ys : List MainContextEntry) :
    assembleMessages env ps td chat (xs ++ ys)
      = assembleMessages env ps td chat xs ++ assembleMessages env ps td chat ys := by
  show (xs ++ ys).foldl (assembleStep env ps td chat) [] = _
  rw [List.foldl_append]
  exact assembleMessages_acc env ps td chat ys _

/-! ## Placeholder round trip (list level) -/

theorem placeholder_roundtrip_list (un cn L : List Char) :
    (containsSub USER_TOKEN.data L = true →
      containsSub USER_TOKEN.data
        (replaceAll CHAR_SENTINEL.data CHAR_TOKEN.data
          (replaceAll USER_SENTINEL.data USER_TOKEN.data
            (replaceAll CHAR_TOKEN.data cn
              (replaceAll USER_TOKEN.data un
                (replaceAll CHAR_TOKEN.data CHAR_SENTINEL.data
                  (replaceAll USER_TOKEN.data USER_SENTINEL.data L)))))) = true) ∧
    (containsSub CHAR_TOKEN.data L = true →
      containsSub CHAR_TOKEN.data
        (replaceAll CHAR_SENTINEL.data CHAR_TOKEN.data
          (replaceAll USER_SENTINEL.data USER_TOKEN.data
            (replaceAll CHAR_TOKEN.data cn
              (replaceAll USER_TOKEN.data un
                (replaceAll CHAR_TOKEN.data CHAR_SENTINEL.data
                  (replaceAll USER_TOKEN.data USER_SENTINEL.data L)))))) = true) := by
  have hU1 : containsSub USER_TOKEN.data
      (replaceAll USER_TOKEN.data USER_SENTINEL.data L) = false :=
    not_containsSub_self_replaceAll' (by decide) (by decide) (by decide) (by decide)
  have hU2 : containsSub USER_TOKEN.data
      (replaceAll CHAR_TOKEN.data CHAR_SENTINEL.data
        (replaceAll USER_TOKEN.data USER_SENTINEL.data L)) = false :=
    not_containsSub_replaceAll' (by decide) (by decide) (by decide) (by decide) hU1
  have hC2 : containsSub CHAR_TOKEN.data
      (replaceAll CHAR_TOKEN.data CHAR_SENTINEL.data
        (replaceAll USER_TOKEN.data USER_SENTINEL.data L)) = false :=
    not_containsSub_self_replaceAll' (by decide) (by decide) (by decide) (by decide)
  have hid1 : replaceAll USER_TOKEN.data un
      (replaceAll CHAR_TOKEN.data CHAR_SENTINEL.data
        (replaceAll USER_TOKEN.data USER_SENTINEL.data L))
      = replaceAll CHAR_TOKEN.data CHAR_SENTINEL.data
          (replaceAll USER_TOKEN.data USER_SENTINEL.data L) :=
    replaceAll_of_not_containsSub hU2
  have hid2 : replaceAll CHAR_TOKEN.data cn
      (replaceAll CHAR_TOKEN.data CHAR_SENTINEL.data
        (replaceAll USER_TOKEN.data USER_SENTINEL.data L))
      = replaceAll CHAR_TOKEN.data CHAR_SENTINEL.data
          (replaceAll USER_TOKEN.data USER_SENTINEL.data L) :=
    replaceAll_of_not_containsSub hC2
  rw [hid1, hid2]
  constructor
  · intro h
    have g1 : containsSub USER_SENTINEL.data
        (replaceAll USER_TOKEN.data USER_SENTINEL.data L) = true :=
      containsSub_rep_replaceAll (by decide) h
    have g2 : containsSub USER_SENTINEL.data
        (replaceAll CHAR_TOKEN.data CHAR_SENTINEL.data
          (replaceAll USER_TOKEN.data USER_SENTINEL.data L)) = true :=
      containsSub_replaceAll_of_overlapFree (by decide) g1
    have g3 : containsSub USER_TOKEN.data
        (replaceAll USER_SENTINEL.data USER_TOKEN.data
          (replaceAll CHAR_TOKEN.data CHAR_SENTINEL.data
            (replaceAll USER_TOKEN.data USER_SENTINEL.data L))) = true :=
      containsSub_rep_replaceAll (by decide) g2
    exact containsSub_replaceAll_of_overlapFree (by decide) g3
  · intro h
    have g1 : containsSub CHAR_TOKEN.data
        (replaceAll USER_TOKEN.data USER_SENTINEL.data L) = true :=
      containsSub_replaceAll_of_overlapFree (by decide) h
    have g2 : containsSub CHAR_SENTINEL.data
        (replaceAll CHAR_TOKEN.data CHAR_SENTINEL.data
          (replaceAll USER_TOKEN.data USER_SENTINEL.data L)) = true :=
      containsSub_rep_replaceAll (by decide) g1
    have g3 : containsSub CHAR_SENTINEL.data
        (replaceAll USER_SENTINEL.data USER_TOKEN.data
          (replaceAll CHAR_TOKEN.data CHAR_SENTINEL.data
            (replaceAll USER_TOKEN.data USER_SENTINEL.data L))) = true :=
      containsSub_replaceAll_of_overlapFree (by decide) g2
    exact containsSub_rep_replaceAll (by decide) g3

/-! ## Claims -/

/-- C1: for every template-derived message, the protect → substitute →
restore sequence of lines 180–184 preserves literal user/char tokens:
if the rendered content contains a literal user or char token, the
processed content still contains it, even against a host substitution that
unconditionally replaces every occurrence of the two tokens. -/
theorem c1_placeholder_roundtrip (uname cname s : String) :
    (containsSubStr USER_TOKEN s = true →
      containsSubStr USER_TOKEN
        (processTemplateContent (substAllStub uname cname) s) = true) ∧
    (containsSubStr CHAR_TOKEN s = true →
      containsSubStr CHAR_TOKEN
        (processTemplateContent (substAllStub uname cname) s) = true) := by
  have h := placeholder_roundtrip_list uname.data cname.data s.data
  exact ⟨fun hh => h.1 hh, fun hh => h.2 hh⟩

/-- C1 witness: a concrete rendered content containing both tokens keeps
them across the protect → substitute → restore sequence run against the
token-consuming substitution stub. -/
theorem c1_placeholder_roundtrip_witness :
    containsSubStr USER_TOKEN "say \x7b\x7buser\x7d\x7d to \x7b\x7bchar\x7d\x7d" = true ∧
    containsSubStr USER_TOKEN
      (processTemplateContent (substAllStub "Alice" "Bob")
        "say \x7b\x7buser\x7d\x7d to \x7b\x7bchar\x7d\x7d") = true ∧
    containsSubStr CHAR_TOKEN "say \x7b\x7buser\x7d\x7d to \x7b\x7bchar\x7d\x7d" = true ∧
    containsSubStr CHAR_TOKEN
      (processTemplateContent (substAllStub "Alice" "Bob")
        "say \x7b\x7buser\x7d\x7d to \x7b\x7bchar\x7d\x7d") = true :=
  ⟨by decide,
    (c1_placeholder_roundtrip "Alice" "Bob" _).1 (by decide),
    by decide,
    (c1_placeholder_roundtrip "Alice" "Bob" _).2 (by decide)⟩

/-- C2: when `mainContextList` is exactly one `chatHistory` entry, the
message list sent to the request service is exactly the base prompt
builder's output (same length, order, roles and contents). -/
theorem c2_chat_history_only (env : Env) (p : RunCharacterFieldGenerationParams)
    (profile : Profile) (api : String) (mc : MainContextEntry)
    (h1 : p.profileId ≠ "")
    (h2 : findProfile env p.profileId = some profile)
    (h3 : selectedApiStep env profile = .ok api)
    (h4 : p.mainContextList = [mc])
    (h5 : mc.promptName = "chatHistory") :
    (runCharacterFieldGeneration env p).2
      = [{ profileId := p.profileId,
           messages := env.buildPrompt api p.buildPromptOptions,
           maxResponseToken := p.maxResponseToken }] := by
  have hsingle : assembleMessages env p.promptSettings
      (buildTemplateData env p (env.substituteParams p.userPrompt.trim))
      (env.buildPrompt api p.buildPromptOptions) p.mainContextList
      = env.buildPrompt api p.buildPromptOptions := by
    rw [h4, assembleMessages_cons]
    have hc : mainContextContribution env p.promptSettings
        (buildTemplateData env p (env.substituteParams p.userPrompt.trim))
        (env.buildPrompt api p.buildPromptOptions) mc
        = env.buildPrompt api p.buildPromptOptions := by
      simp [mainContextContribution, h5, message_eta]
    rw [hc]
    simp [assembleMessages]
  simp only [runCharacterFieldGeneration, h1, if_false, h2, h3, hsingle]

/-- C2 witness: concrete request whose single `chatHistory` entry makes the
sent messages equal the base builder output, including its empty-content
message. -/
theorem c2_chat_history_only_witness :
    (runCharacterFieldGeneration envW paramsW).2
      = [{ profileId := "p1",
           messages := [{ role := "system", content := "sys" },
                        { role := "user", content := "" }],
           maxResponseToken := 10 }] := by
  have h := c2_chat_history_only envW paramsW
    { id := "p1", name := "Main", api := some "openai" } "oai"
    { promptName := "chatHistory", role := "user" }
    (by decide) (by rfl) (by rfl) (by rfl) (by rfl)
  simpa using h

/-- C3: an empty `profileId` fails with the no-profile-selected error and
an unresolved `profileId` fails with the profile-not-found error, in both
cases with zero request-service calls. -/
theorem c3_profile_preconditions (env : Env)
    (p : RunCharacterFieldGenerationParams) :
    (p.profileId = "" →
      runCharacterFieldGeneration env p = (.error .noProfileSelected, [])) ∧
    (p.profileId ≠ "" → findProfile env p.profileId = none →
      runCharacterFieldGeneration env p
        = (.error (.profileNotFound p.profileId), [])) := by
  constructor
  · intro h
    simp [runCharacterFieldGeneration, h]
  · intro h1 h2
    simp [runCharacterFieldGeneration, h1, h2]

/-- C3 witness: both profile precondition failures on concrete requests. -/
theorem c3_profile_preconditions_witness :
    runCharacterFieldGeneration envW { paramsW with profileId := "" }
        = (.error .noProfileSelected, []) ∧
    runCharacterFieldGeneration envW { paramsW with profileId := "zz" }
        = (.error (.profileNotFound "zz"), []) := by
  constructor
  · exact (c3_profile_preconditions envW _).1 rfl
  · exact (c3_profile_preconditions envW _).2 (by decide) (by rfl)

/-- C4 counterexample: a resolved profile whose non-empty api key is
absent from `CONNECT_API_MAP` fails with the JavaScript `TypeError` of
line 93 (`CONNECT_API_MAP[profile.api].selected` with no optional
chaining), not with the API-undeterminable configuration error, so the
claim as stated is false at this concrete input. -/
theorem c4_api_undeterminable_counterexample :
    runCharacterFieldGeneration
        { envW with
            profiles := some [{ id := "p1", name := "Main", api := some "mystery" }] }
        paramsW
      = (.error .jsTypeError, []) ∧
    GenError.jsTypeError ≠ GenError.apiUndeterminable "Main" := by
  constructor
  · rfl
  · decide

/-- C4 (amended): a resolved profile that does not map to a known backend
API fails before any message assembly or request-service interaction (the
`sendRequest` trace is empty); the error is the API-undeterminable
configuration error when the api field is missing, empty, or maps to a
`CONNECT_API_MAP` entry with no (or an empty) selected backend, and the
JavaScript `TypeError` of line 93 when the non-empty api key is absent
from `CONNECT_API_MAP`. -/
theorem c4_api_undeterminable (env : Env)
    (p : RunCharacterFieldGenerationParams) (profile : Profile)
    (h1 : p.profileId ≠ "")
    (h2 : findProfile env p.profileId = some profile) :
    ((profile.api = none ∨ profile.api = some "" ∨
        ∃ a entry, profile.api = some a ∧
          lookupRecord env.connectApiMap a = some entry ∧
          (entry.selected = none ∨ entry.selected = some "")) →
      runCharacterFieldGeneration env p
        = (.error (.apiUndeterminable profile.name), [])) ∧
    (∀ a, profile.api = some a → a ≠ "" →
      lookupRecord env.connectApiMap a = none →
      runCharacterFieldGeneration env p = (.error .jsTypeError, [])) := by
  constructor
  · intro h3
    have hsel : selectedApiStep env profile
        = .error (.apiUndeterminable profile.name) := by
      rcases h3 with h | h | ⟨a, entry, ha, hl, hs⟩
      · simp [selectedApiStep, h]
      · simp [selectedApiStep, h]
      · by_cases hae : a = ""
        · simp [selectedApiStep, ha, hae]
        · rcases hs with h4 | h4 <;> simp [selectedApiStep, ha, hae, hl, h4]
    simp [runCharacterFieldGeneration, h1, h2, hsel]
  · intro a ha hae hl
    have hsel : selectedApiStep env profile = .error .jsTypeError := by
      simp [selectedApiStep, ha, hae, hl]
    simp [runCharacterFieldGeneration, h1, h2, hsel]

/-- C4 witness: both branches on concrete requests — a missing api field
gives the API-undeterminable error, an api key absent from the map gives
the `TypeError`, with zero request-service calls in both cases. -/
theorem c4_api_undeterminable_witness :
    runCharacterFieldGeneration
        { envW with profiles := some [{ id := "p1", name := "Main", api := none }] }
        paramsW
      = (.error (.apiUndeterminable "Main"), []) ∧
    runCharacterFieldGeneration
        { envW with
            profiles := some [{ id := "p1", name := "Main", api := some "other" }] }
        paramsW
      = (.error .jsTypeError, []) := by
  constructor
  · exact (c4_api_undeterminable _ paramsW
      { id := "p1", name := "Main", api := none } (by decide) (by rfl)).1
      (Or.inl rfl)
  · exact (c4_api_undeterminable _ paramsW
      { id := "p1", name := "Main", api := some "other" } (by decide) (by rfl)).2
      "other" rfl (by decide) (by rfl)

/-- C5: a world appears in the template context's lorebooks exactly when
its entry list is non-empty, its name is selected, and some entry is
enabled; its included list is the enabled entries in original order. -/
theorem c5_lorebook_filtering (groups : List (String × List WIEntry))
    (sel : List String) (w : String) (lst : List WIEntry) :
    (w, lst) ∈ buildLorebooks groups sel ↔
      ∃ es, (w, es) ∈ groups ∧ es ≠ [] ∧ w ∈ sel ∧
        (∃ e ∈ es, e.disable = false) ∧
        lst = es.filter (fun e => !e.disable) := by
  unfold buildLorebooks
  constructor
  · intro h
    rcases List.mem_map.mp h with ⟨we, hwe, heq⟩
    obtain ⟨w', es⟩ := we
    rcases List.mem_filter.mp hwe with ⟨hmem, hcond⟩
    obtain ⟨heq1, heq2⟩ : w' = w ∧ es.filter (fun e => !e.disable) = lst := by
      simpa [Prod.ext_iff] using heq
    rw [heq1] at hmem hcond
    subst heq2
    simp only [Bool.and_eq_true, decide_eq_true_eq, List.any_eq_true,
      Bool.not_eq_true', List.contains_iff_exists_mem_beq] at hcond
    refine ⟨es, hmem, ?_, ?_, ?_, rfl⟩
    · intro he
      subst he
      simp at hcond
    · rcases hcond.1.2 with ⟨x, hx, hbeq⟩
      have : w = x := by simpa using hbeq
      exact this ▸ hx
    · rcases hcond.2 with ⟨e, he, hd⟩
      exact ⟨e, he, hd⟩
  · rintro ⟨es, hmem, hne, hsel, ⟨e, he, hd⟩, rfl⟩
    refine List.mem_map.mpr ⟨(w, es), List.mem_filter.mpr ⟨hmem, ?_⟩, rfl⟩
    simp only [Bool.and_eq_true, decide_eq_true_eq, List.any_eq_true,
      Bool.not_eq_true', List.contains_iff_exists_mem_beq]
    refine ⟨⟨?_, ⟨w, hsel, by simp⟩⟩, ⟨e, he, hd⟩⟩
    cases es with
    | nil => exact absurd rfl hne
    | cons a l => simp

/-- C6: the character-resolution loop never fails and produces exactly the
characters whose index strings resolve, in the listed order. -/
theorem c6_character_resolution (allCharacters : List Character)
    (idxs : List String) :
    buildCharacters allCharacters idxs
      = idxs.filterMap (resolveCharacter allCharacters) := by
  have h : ∀ (l : List String) (acc : List Character),
      l.foldl
        (fun charactersData charIndex =>
          match jsParseInt charIndex with
          | none => charactersData
          | some n =>
            match jsIndex allCharacters n with
            | some char => charactersData ++ [char]
            | none => charactersData) acc
      = acc ++ l.filterMap (resolveCharacter allCharacters) := by
    intro l
    induction l with
    | nil => intro acc; simp
    | cons sIdx l ih =>
      intro acc
      rw [List.foldl_cons, ih]
      cases hp : jsParseInt sIdx with
      | none => simp [resolveCharacter, hp]
      | some n =>
        cases hi : jsIndex allCharacters n with
        | none => simp [resolveCharacter, hp, hi]
        | some c => simp [resolveCharacter, hp, hi]
  simpa [buildCharacters] using h idxs []

/-- C7: a template entry whose name is absent from the prompt-settings
mapping emits nothing and leaves the surrounding entries unaffected. -/
theorem c7_missing_prompt_skipped (env : Env)
    (ps : List (String × PromptSetting)) (td : TemplateData)
    (chat : List Message) (xs ys : List MainContextEntry)
    (mc : MainContextEntry)
    (h1 : mc.promptName ≠ "chatHistory")
    (h2 : lookupRecord ps mc.promptName = none) :
    assembleMessages env ps td chat (xs ++ mc :: ys)
      = assembleMessages env ps td chat (xs ++ ys) := by
  rw [assembleMessages_append, assembleMessages_append, assembleMessages_cons]
  have hc : mainContextContribution env ps td chat mc = [] := by
    simp [mainContextContribution, h1, h2]
  rw [hc, List.nil_append]

/-- C7 witness: a concrete entry named `missing` is skipped without
affecting the neighbouring entries. -/
theorem c7_missing_prompt_skipped_witness :
    assembleMessages envW paramsW.promptSettings tdW
        [{ role := "system", content := "sys" }]
        ([{ promptName := "intro", role := "system" }]
          ++ { promptName := "missing", role := "user" }
            :: [{ promptName := "chatHistory", role := "user" }])
      = assembleMessages envW paramsW.promptSettings tdW
          [{ role := "system", content := "sys" }]
          ([{ promptName := "intro", role := "system" }]
            ++ [{ promptName := "chatHistory", role := "user" }]) := by
  exact c7_missing_prompt_skipped envW paramsW.promptSettings tdW _ _ _ _
    (by decide) (by rfl)

/-- C8: an entry whose rendered-and-substituted content is empty emits no
message, and a message list assembled from template entries only never
contains an empty content. -/
theorem c8_empty_content_dropped (env : Env)
    (ps : List (String × PromptSetting)) (td : TemplateData)
    (chat : List Message) :
    (∀ (xs ys : List MainContextEntry) (mc : MainContextEntry)
        (prompt : PromptSetting),
      mc.promptName ≠ "chatHistory" →
      lookupRecord ps mc.promptName = some prompt →
      processTemplateContent env.substituteParams
          (env.render prompt.content td) = "" →
      assembleMessages env ps td chat (xs ++ mc :: ys)
        = assembleMessages env ps td chat (xs ++ ys)) ∧
    (∀ l : List MainContextEntry,
      (∀ mc ∈ l, mc.promptName ≠ "chatHistory") →
      ∀ m ∈ assembleMessages env ps td chat l, m.content ≠ "") := by
  constructor
  · intro xs ys mc prompt h1 h2 h3
    rw [assembleMessages_append, assembleMessages_append, assembleMessages_cons]
    have hc : mainContextContribution env ps td chat mc = [] := by
      simp [mainContextContribution, h1, h2, h3]
    rw [hc, List.nil_append]
  · intro l
    induction l with
    | nil =>
      intro _ m hm
      simp [assembleMessages] at hm
    | cons mc l ih =>
      intro hAll m hm
      rw [assembleMessages_cons] at hm
      rcases List.mem_append.mp hm with hm | hm
      · have hne := hAll mc (List.mem_cons_self mc l)
        simp only [mainContextContribution, hne, if_false] at hm
        cases hl : lookupRecord ps mc.promptName with
        | none => rw [hl] at hm; simp at hm
        | some prompt =>
          rw [hl] at hm
          by_cases hc : processTemplateContent env.substituteParams
              (env.render prompt.content td) = ""
          · simp [hc] at hm
          · simp only [hc, if_false, List.mem_singleton] at hm
            rw [hm]
            exact hc
      · exact ih (fun x hx => hAll x (List.mem_cons_of_mem mc hx)) m hm

/-- C8 witness: with a renderer producing the empty string the entry emits
nothing, and a concretely assembled template message has non-empty
content. -/
theorem c8_empty_content_dropped_witness :
    assembleMessages envEmptyW paramsW.promptSettings tdW []
        ([] ++ { promptName := "intro", role := "system" } :: [])
      = assembleMessages envEmptyW paramsW.promptSettings tdW [] ([] ++ []) ∧
    ({ role := "system", content := "Hello" } : Message).content ≠ "" := by
  constructor
  · exact (c8_empty_content_dropped envEmptyW paramsW.promptSettings tdW []).1
      [] [] { promptName := "intro", role := "system" } { content := "Hello" }
      (by decide) (by rfl) (by decide)
  · exact (c8_empty_content_dropped envW paramsW.promptSettings tdW []).2
      [{ promptName := "intro", role := "system" }] (by decide)
      { role := "system", content := "Hello" } (by decide)

/-- C9: the template context's field-specific instructions resolve with
draft precedence: a draft field with the target name wins over a fixed
field of the same name; otherwise the fixed field's prompt is used. -/
theorem c9_field_instructions_precedence (env : Env)
    (p : RunCharacterFieldGenerationParams) (processedUserPrompt : String) :
    (∀ f, lookupRecord p.session.draftFields p.targetField = some f →
      (buildTemplateData env p processedUserPrompt).fieldSpecificInstructions
        = some f.prompt) ∧
    (lookupRecord p.session.draftFields p.targetField = none →
      (buildTemplateData env p processedUserPrompt).fieldSpecificInstructions
        = (lookupRecord p.session.fields p.targetField).map
            CharacterField.prompt) := by
  constructor
  · intro f h
    simp [buildTemplateData, fieldSpecificInstructionsOf, h, Option.orElse]
  · intro h
    simp [buildTemplateData, fieldSpecificInstructionsOf, h, Option.orElse]

/-- C9 witness: with colliding draft and fixed fields named `description`
the draft prompt wins; with target `name` the fixed mapping is consulted. -/
theorem c9_field_instructions_precedence_witness :
    (buildTemplateData envW paramsW "").fieldSpecificInstructions
        = some "draft" ∧
    (buildTemplateData envW { paramsW with targetField := "name" }
        "").fieldSpecificInstructions
      = (lookupRecord sessionW.fields "name").map CharacterField.prompt := by
  constructor
  · exact (c9_field_instructions_precedence envW paramsW "").1
      { prompt := "draft", value := "w", label := "Draft" } (by rfl)
  · exact (c9_field_instructions_precedence envW
      { paramsW with targetField := "name" } "").2 (by rfl)

/-- C10: every `chatHistory` occurrence splices the base-builder messages
verbatim — no rendering, no placeholder protection, no substitution, no
empty-content filtering and no use of the entry's role field. -/
theorem c10_chat_history_verbatim (env : Env)
    (ps : List (String × PromptSetting)) (td : TemplateData)
    (chat : List Message) (xs ys : List MainContextEntry) (role : String) :
    assembleMessages env ps td chat
        (xs ++ { promptName := "chatHistory", role := role } :: ys)
      = assembleMessages env ps td chat xs ++ chat
          ++ assembleMessages env ps td chat ys := by
  rw [assembleMessages_append, assembleMessages_cons]
  have hc : mainContextContribution env ps td chat
      { promptName := "chatHistory", role := role } = chat := by
    simp [mainContextContribution, message_eta]
  rw [hc, List.append_assoc]

end CharCreator
